import Mathlib

/-!
# Tuneline scrobble-timeline engine: a shallow embedding

This file embeds the timeline core of the Tuneline frontend in Lean and
proves properties of it.

Modelling conventions:
* Instants (JS `Date` values, date-fns arithmetic) are integer milliseconds.
  `differenceInMilliseconds a b` is exact subtraction `a - b`;
  `differenceInDays a b` is the whole-day difference truncated toward zero,
  which is `Int.tdiv (a - b) msPerDay` on this model.
* JS floating-point numbers that stay in the exact-arithmetic regime are
  rationals; where a computation can divide by zero (IEEE semantics:
  `Infinity` / `NaN`, no exception) the value is modelled by `JsNum`, a
  rational extended with the three special values.
* React `useState` setters become explicit state transformers on a record
  of the hook state; the asynchronous fetch is modelled by a trace of
  discrete events folded over that state.
-/

namespace Tuneline

/-- Milliseconds per hour. -/
def msPerHour : Int := 3600000

/-- Milliseconds per day. -/
def msPerDay : Int := 86400000

/-- A selected time window.  The source field `end` is a Lean keyword, so it
is embedded as `stop`; `start`/`stop` are instants in milliseconds. -/
structure TimeRange where
  start : Int
  stop : Int
deriving DecidableEq, Repr

/-- One listening event, from the frontend `Scrobble` type.  `listened_at`
is an ISO timestamp string in the source, always consumed through
`new Date(...)`; it is embedded directly as the parsed instant. -/
structure Scrobble where
  id : Int
  artist : String
  track : String
  album : Option String
  listened_at : Int
  image_url : Option String
deriving DecidableEq, Repr

/-- `date-fns` `differenceInMilliseconds`. -/
def differenceInMilliseconds (a b : Int) : Int := a - b

/-- `date-fns` `differenceInDays`: the number of whole days between two
instants, truncated toward zero (the sign-aware full-day count). -/
def differenceInDays (a b : Int) : Int := Int.tdiv (a - b) msPerDay

/-- Minimum width per scrobble (album art + padding), from ScrobbleTimeline. -/
def MIN_SCROBBLE_WIDTH : Int := 60

/-- Minimum width for the timeline, from ScrobbleTimeline. -/
def MIN_TIMELINE_WIDTH : Int := 800

/-- `daysInRange` as computed inside `calculateTimelineWidth` and
`generateTimeMarkers`: `differenceInDays(end, start) + 1`. -/
def daysInRange (tr : TimeRange) : Int :=
  differenceInDays tr.stop tr.start + 1

/-- `calculateTimelineWidth` from ScrobbleTimeline:
`Math.max(scrobbles.length * 60, daysInRange * 200, 800)`. -/
def calculateTimelineWidth (scrobbles : List Scrobble) (tr : TimeRange) : Int :=
  max (max ((scrobbles.length : Int) * MIN_SCROBBLE_WIDTH) (daysInRange tr * 200))
    MIN_TIMELINE_WIDTH

/-- The width formula in the spec's words: `days_in_range` is the *floor* of
the day difference, plus one.  Kept separate from `calculateTimelineWidth`
(which uses the source's truncated `differenceInDays`) so the two can be
compared. -/
def spec_timelineWidth (scrobbles : List Scrobble) (tr : TimeRange) : Int :=
  max (max ((scrobbles.length : Int) * 60)
      ((Int.fdiv (tr.stop - tr.start) msPerDay + 1) * 200))
    800

/-- Collapsing a middle argument that is dominated by the outer minimum. -/
lemma max_max_of_middle_le (a b c : Int) (h : b ≤ c) :
    max (max a b) c = max a c := by
  omega

/-- `C1`: for every time range and every event list, the computed timeline
width equals `max(events.length * 60, days_in_range * 200, 800)` with
`days_in_range = floor(end - start in days) + 1`, and the width is always at
least 800. -/
theorem calculateTimelineWidth_spec (scrobbles : List Scrobble) (tr : TimeRange) :
    calculateTimelineWidth scrobbles tr = spec_timelineWidth scrobbles tr ∧
      800 ≤ calculateTimelineWidth scrobbles tr := by
  constructor
  · unfold calculateTimelineWidth spec_timelineWidth daysInRange differenceInDays
      MIN_SCROBBLE_WIDTH MIN_TIMELINE_WIDTH
    rcases le_or_lt tr.start tr.stop with h | h
    · rw [Int.tdiv_eq_ediv (by omega) (by unfold msPerDay; omega),
        Int.fdiv_eq_ediv _ (by unfold msPerDay; omega)]
    · -- degenerate range: both day counts give a term below the 800 floor,
      -- so both maxima collapse to the same value
      have htd : Int.tdiv (tr.stop - tr.start) msPerDay ≤ 0 := by
        rw [show tr.stop - tr.start = -(tr.start - tr.stop) by ring, Int.neg_tdiv]
        have : 0 ≤ Int.tdiv (tr.start - tr.stop) msPerDay :=
          Int.tdiv_nonneg (by omega) (by unfold msPerDay; omega)
        omega
      have hfd : Int.fdiv (tr.stop - tr.start) msPerDay ≤ 0 := by
        rw [Int.fdiv_eq_ediv _ (by unfold msPerDay; omega)]
        have : tr.stop - tr.start < 0 := by omega
        have := Int.ediv_nonpos (a := tr.stop - tr.start) (b := msPerDay)
        unfold msPerDay at *
        omega
      rw [max_max_of_middle_le _ _ _ (by omega), max_max_of_middle_le _ _ _ (by omega)]
  · exact le_max_right _ _

/-- A JS floating-point number in the exact regime: a rational, or one of
the special values produced by IEEE division by zero.  JS division never
throws; `x / 0` is `Infinity`, `-Infinity` or `NaN` depending on the sign
of `x`. -/
inductive JsNum where
  | num : ℚ → JsNum
  | nan : JsNum
  | posInf : JsNum
  | negInf : JsNum
deriving DecidableEq, Repr

/-- JS division of two exact integers (`msFromStart / timeRangeMs`).
`0 / 0` is `NaN`; a nonzero numerator over zero gives a signed infinity. -/
def jsDivInt (a b : Int) : JsNum :=
  if b ≠ 0 then .num ((a : ℚ) / (b : ℚ))
  else if 0 < a then .posInf
  else if a < 0 then .negInf
  else .nan

/-- `Math.min(q, x)` with a rational first argument; `NaN` propagates. -/
def jsMin (q : ℚ) : JsNum → JsNum
  | .num r => .num (min q r)
  | .nan => .nan
  | .posInf => .num q
  | .negInf => .negInf

/-- `Math.max(q, x)` with a rational first argument; `NaN` propagates. -/
def jsMax (q : ℚ) : JsNum → JsNum
  | .num r => .num (max q r)
  | .nan => .nan
  | .posInf => .posInf
  | .negInf => .num q

/-- Multiplication of a JS value by an exact rational (`fraction * width`). -/
def jsMulNum (x : JsNum) (w : ℚ) : JsNum :=
  match x with
  | .num r => .num (r * w)
  | .nan => .nan
  | .posInf => if 0 < w then .posInf else if w < 0 then .negInf else .nan
  | .negInf => if 0 < w then .negInf else if w < 0 then .posInf else .nan

/-- The per-event body of `positionScrobbles`:
`position = Math.max(0, Math.min(1, msFromStart / timeRangeMs)) * width`. -/
def positionScrobble (tr : TimeRange) (width : ℚ) (s : Scrobble) : JsNum :=
  jsMulNum
    (jsMax 0 (jsMin 1
      (jsDivInt (differenceInMilliseconds s.listened_at tr.start)
        (differenceInMilliseconds tr.stop tr.start))))
    width

/-- `positionScrobbles` from ScrobbleTimeline: early return on an empty
list, otherwise map each scrobble to itself paired with its position. -/
def positionScrobbles (scrobbles : List Scrobble) (tr : TimeRange) (width : ℚ) :
    List (Scrobble × JsNum) :=
  if scrobbles.isEmpty then []
  else scrobbles.map (fun s => (s, positionScrobble tr width s))

/-- A fixed sample scrobble used by concrete counterexamples. -/
def sampleScrobble : Scrobble :=
  { id := 1, artist := "a", track := "t", album := none,
    listened_at := 0, image_url := none }

/-- `C2` counterexample: in the zero-length range `[0, 0]`, the scrobble at
instant 0 is positioned by computing `0 / 0`, which is `NaN`, not offset 0;
the claimed "fraction = 0 for all events, no division by zero" convention
is not in the code. -/
theorem positionScrobble_zero_range_nan :
    positionScrobble { start := 0, stop := 0 } 800 sampleScrobble = JsNum.nan ∧
      positionScrobble { start := 0, stop := 0 } 800 sampleScrobble ≠ JsNum.num 0 := by
  constructor
  · rfl
  · decide

/-- For a range with `start < stop` and a nonnegative width, every
positioned event's offset is a real number in `[0, width]`. -/
lemma positionScrobbles_mem_num_range (tr : TimeRange) (width : ℚ)
    (p : Scrobble × JsNum) :
    tr.start < tr.stop → 0 ≤ width →
      ∀ scrobbles, p ∈ positionScrobbles scrobbles tr width →
        ∃ q : ℚ, p.2 = JsNum.num q ∧ 0 ≤ q ∧ q ≤ width := by
  intro hlt hw scrobbles hmem
  unfold positionScrobbles at hmem
  by_cases hempty : scrobbles.isEmpty
  · simp [hempty] at hmem
  · rw [if_neg hempty, List.mem_map] at hmem
    obtain ⟨t, -, hp⟩ := hmem
    subst hp
    have hne : differenceInMilliseconds tr.stop tr.start ≠ 0 := by
      unfold differenceInMilliseconds; omega
    refine ⟨max 0 (min 1 ((differenceInMilliseconds t.listened_at tr.start : ℚ) /
      (differenceInMilliseconds tr.stop tr.start : ℚ))) * width, ?_, ?_, ?_⟩
    · unfold positionScrobble jsDivInt
      simp only [hne, if_true, ne_eq, not_false_iff]
      rfl
    · have h0 : (0 : ℚ) ≤ max 0 (min 1 ((differenceInMilliseconds t.listened_at tr.start : ℚ) /
          (differenceInMilliseconds tr.stop tr.start : ℚ))) := le_max_left _ _
      exact mul_nonneg h0 hw
    · have h1 : max 0 (min 1 ((differenceInMilliseconds t.listened_at tr.start : ℚ) /
          (differenceInMilliseconds tr.stop tr.start : ℚ))) ≤ 1 :=
        max_le (by norm_num) (min_le_left _ _)
      calc max 0 (min 1 ((differenceInMilliseconds t.listened_at tr.start : ℚ) /
            (differenceInMilliseconds tr.stop tr.start : ℚ))) * width
          ≤ 1 * width := mul_le_mul_of_nonneg_right h1 hw
        _ = width := one_mul width

/-- `C2` as amended: with the width actually passed by the component
(`calculateTimelineWidth`), a degenerate zero-length range makes the code
divide by zero, and an event whose timestamp equals the range endpoint
gets `NaN` rather than offset 0; for a range with `start < stop`, every
positioned event's offset is a real number in `[0, timelineWidth]`. -/
theorem positionScrobbles_offsets (tr : TimeRange) (s : Scrobble)
    (p : Scrobble × JsNum) (scrobbles : List Scrobble) :
    (tr.stop = tr.start → s.listened_at = tr.start →
      positionScrobble tr (calculateTimelineWidth scrobbles tr : ℚ) s = JsNum.nan) ∧
    (tr.start < tr.stop →
      p ∈ positionScrobbles scrobbles tr (calculateTimelineWidth scrobbles tr : ℚ) →
        ∃ q : ℚ, p.2 = JsNum.num q ∧ 0 ≤ q ∧
          q ≤ (calculateTimelineWidth scrobbles tr : ℚ)) := by
  have hw : (0 : ℚ) ≤ (calculateTimelineWidth scrobbles tr : ℚ) := by
    have h800 : (800 : Int) ≤ calculateTimelineWidth scrobbles tr := le_max_right _ _
    have : (0 : Int) ≤ calculateTimelineWidth scrobbles tr := by omega
    exact_mod_cast this
  constructor
  · intro hstop hts
    unfold positionScrobble differenceInMilliseconds jsDivInt
    rw [hstop, hts]
    simp [jsMin, jsMax, jsMulNum]
  · intro hlt hmem
    exact positionScrobbles_mem_num_range tr _ p hlt hw scrobbles hmem

/-- Witness for `positionScrobbles_offsets` at concrete inputs: in the
degenerate range `[0, 0]` the scrobble at instant 0 is positioned at `NaN`,
and in the range `[0, 86400000]` it gets a rational offset within the
computed width. -/
theorem positionScrobbles_offsets_witness :
    positionScrobble { start := 0, stop := 0 }
        (calculateTimelineWidth [sampleScrobble] { start := 0, stop := 0 } : ℚ)
        sampleScrobble = JsNum.nan ∧
      ∃ q : ℚ,
        (sampleScrobble,
            positionScrobble { start := 0, stop := 86400000 }
              (calculateTimelineWidth [sampleScrobble] { start := 0, stop := 86400000 } : ℚ)
              sampleScrobble).2 = JsNum.num q ∧
          0 ≤ q ∧
          q ≤ (calculateTimelineWidth [sampleScrobble] { start := 0, stop := 86400000 } : ℚ) := by
  constructor
  · exact (positionScrobbles_offsets { start := 0, stop := 0 } sampleScrobble
      (sampleScrobble, JsNum.nan) [sampleScrobble]).1 rfl rfl
  · refine (positionScrobbles_offsets { start := 0, stop := 86400000 } sampleScrobble
      _ [sampleScrobble]).2 (by decide) ?_
    exact List.mem_singleton_self _

/-- A time marker on the timeline.  The `label` is produced in the source by
`format(currentDate, formatString)`; the textual rendering of the date is
external (date-fns), so the marker carries the chosen format string and the
instant itself. -/
structure TimeMarker where
  position : JsNum
  label : String
  date : Int
deriving DecidableEq, Repr

/-- The interval table of `generateTimeMarkers`, first matching row wins,
evaluated on `daysInRange`: interval in hours paired with the label format
string. -/
def markerInterval (days : Int) : Int × String :=
  if days ≤ 1 then (1, "h:mm a")
  else if days ≤ 7 then (6, "MMM d, h a")
  else if days ≤ 31 then (24, "MMM d")
  else (24 * 7, "MMM d")

/-- The clamped offset formula shared by event positions and markers:
`Math.max(0, Math.min(1, msFromStart / timeRangeMs)) * width`. -/
def clampedOffset (tr : TimeRange) (width : ℚ) (d : Int) : JsNum :=
  jsMulNum
    (jsMax 0 (jsMin 1
      (jsDivInt (differenceInMilliseconds d tr.start)
        (differenceInMilliseconds tr.stop tr.start))))
    width

/-- One marker of `generateTimeMarkers`, at instant `d`. -/
def mkMarker (tr : TimeRange) (width : ℚ) (fmt : String) (d : Int) : TimeMarker :=
  { position := clampedOffset tr width d, label := fmt, date := d }

/-- The `while (currentDate <= timeRange.end)` loop of `generateTimeMarkers`,
with an explicit fuel bound.  Because each iteration advances `current` by
`ivMs ≥ 1` milliseconds, fuel `(tr.stop + 1 - current).toNat` is enough for
the loop to run to completion; `generateMarkersLoop_eq_closedForm` proves
the result is then the full marker list and is unchanged by extra fuel. -/
def generateMarkersLoop (tr : TimeRange) (width : ℚ) (ivMs : Int) (fmt : String) :
    Nat → Int → List TimeMarker
  | 0, _ => []
  | fuel + 1, current =>
    if current ≤ tr.stop then
      mkMarker tr width fmt current ::
        generateMarkersLoop tr width ivMs fmt fuel (current + ivMs)
    else []

/-- `generateTimeMarkers` from ScrobbleTimeline: choose the interval and
format from `daysInRange`, then walk from `start` to `stop` in steps of
`intervalHours * 60 * 60 * 1000` milliseconds. -/
def generateTimeMarkers (tr : TimeRange) (width : ℚ) : List TimeMarker :=
  let iv := markerInterval (daysInRange tr)
  generateMarkersLoop tr width (iv.1 * msPerHour) iv.2
    (tr.stop + 1 - tr.start).toNat tr.start

/-- Number of loop iterations remaining when the cursor is at `current`. -/
def markerSteps (tr : TimeRange) (ivMs : Int) (current : Int) : Nat :=
  if current ≤ tr.stop then (tr.stop - current).toNat / ivMs.toNat + 1 else 0

/-- Closed form of the marker loop: one marker per step of the arithmetic
progression `current, current + ivMs, current + 2 ivMs, ...`. -/
def markerClosedForm (tr : TimeRange) (width : ℚ) (ivMs : Int) (fmt : String)
    (current : Int) : List TimeMarker :=
  (List.range (markerSteps tr ivMs current)).map
    (fun (k : Nat) => mkMarker tr width fmt (current + (k : Int) * ivMs))

lemma markerSteps_succ (tr : TimeRange) (ivMs : Int) (current : Int)
    (hiv : 0 < ivMs) (hc : current ≤ tr.stop) :
    markerSteps tr ivMs current = markerSteps tr ivMs (current + ivMs) + 1 := by
  unfold markerSteps
  rw [if_pos hc]
  by_cases hc2 : current + ivMs ≤ tr.stop
  · rw [if_pos hc2]
    have hsplit : (tr.stop - current).toNat =
        (tr.stop - (current + ivMs)).toNat + ivMs.toNat := by omega
    rw [hsplit, Nat.add_div_right _ (by omega)]
  · rw [if_neg hc2]
    have hlt : (tr.stop - current).toNat < ivMs.toNat := by omega
    rw [Nat.div_eq_of_lt hlt]

lemma markerClosedForm_cons (tr : TimeRange) (width : ℚ) (ivMs : Int)
    (fmt : String) (current : Int) (hiv : 0 < ivMs) (hc : current ≤ tr.stop) :
    markerClosedForm tr width ivMs fmt current =
      mkMarker tr width fmt current ::
        markerClosedForm tr width ivMs fmt (current + ivMs) := by
  unfold markerClosedForm
  rw [markerSteps_succ tr ivMs current hiv hc, List.range_succ_eq_map,
    List.map_cons, List.map_map]
  refine congrArg₂ _ ?_ ?_
  · norm_num
  · refine List.map_congr_left ?_
    intro k _
    simp only [Function.comp]
    congr 1
    push_cast
    ring

/-- With at least `(tr.stop + 1 - current).toNat` fuel and a positive step,
the marker loop computes the closed-form list (in particular it has run to
completion: the final `else` branch was reached). -/
lemma generateMarkersLoop_eq_closedForm (tr : TimeRange) (width : ℚ)
    (ivMs : Int) (fmt : String) (hiv : 0 < ivMs) :
    ∀ fuel current, (tr.stop + 1 - current).toNat ≤ fuel →
      generateMarkersLoop tr width ivMs fmt fuel current =
        markerClosedForm tr width ivMs fmt current := by
  intro fuel
  induction fuel with
  | zero =>
    intro current h
    have hc : ¬ current ≤ tr.stop := by omega
    unfold generateMarkersLoop markerClosedForm markerSteps
    rw [if_neg hc]
    rfl
  | succ fuel ih =>
    intro current h
    show (if current ≤ tr.stop then
        mkMarker tr width fmt current ::
          generateMarkersLoop tr width ivMs fmt fuel (current + ivMs)
      else []) = _
    by_cases hc : current ≤ tr.stop
    · rw [if_pos hc, ih (current + ivMs) (by omega),
        markerClosedForm_cons tr width ivMs fmt current hiv hc]
    · rw [if_neg hc]
      unfold markerClosedForm markerSteps
      rw [if_neg hc]
      rfl

lemma markerInterval_fst_cases (days : Int) :
    (markerInterval days).1 = 1 ∨ (markerInterval days).1 = 6 ∨
      (markerInterval days).1 = 24 ∨ (markerInterval days).1 = 168 := by
  unfold markerInterval
  split_ifs <;> norm_num

lemma markerInterval_fst_pos (days : Int) : 0 < (markerInterval days).1 := by
  rcases markerInterval_fst_cases days with h | h | h | h <;> omega

/-- The full content of claim `C3`, as a predicate on a range and width:
the marker instants are exactly `start + k * interval` for
`k = 0 .. (stop - start) / interval`; every marker instant is at most
`stop`; the next step past the last marker exceeds `stop`; and the interval
is chosen from `daysInRange` by the table, first matching row winning. -/
def markersSpec (tr : TimeRange) (width : ℚ) : Prop :=
  (generateTimeMarkers tr width).map TimeMarker.date =
      (List.range
        ((tr.stop - tr.start).toNat /
            ((markerInterval (daysInRange tr)).1 * msPerHour).toNat + 1)).map
        (fun (k : Nat) =>
          tr.start + (k : Int) * ((markerInterval (daysInRange tr)).1 * msPerHour)) ∧
    (∀ m ∈ generateTimeMarkers tr width, m.date ≤ tr.stop) ∧
    tr.stop < tr.start +
      (((tr.stop - tr.start).toNat /
          ((markerInterval (daysInRange tr)).1 * msPerHour).toNat + 1 : Nat) : Int) *
        ((markerInterval (daysInRange tr)).1 * msPerHour) ∧
    (daysInRange tr ≤ 1 → (markerInterval (daysInRange tr)).1 = 1) ∧
    (1 < daysInRange tr → daysInRange tr ≤ 7 → (markerInterval (daysInRange tr)).1 = 6) ∧
    (7 < daysInRange tr → daysInRange tr ≤ 31 → (markerInterval (daysInRange tr)).1 = 24) ∧
    (31 < daysInRange tr → (markerInterval (daysInRange tr)).1 = 168)

/-- `C3`: for every range with `start ≤ end`, the marker generator picks the
interval from `daysInRange` by the table and emits exactly the markers
`start + k * interval` with instant at most `end`. -/
theorem generateTimeMarkers_spec (tr : TimeRange) (width : ℚ)
    (h : tr.start ≤ tr.stop) : markersSpec tr width := by
  have hivh := markerInterval_fst_pos (daysInRange tr)
  have hiv : 0 < (markerInterval (daysInRange tr)).1 * msPerHour := by
    unfold msPerHour
    positivity
  have hivnat : (((markerInterval (daysInRange tr)).1 * msPerHour).toNat : Int) =
      (markerInterval (daysInRange tr)).1 * msPerHour := by omega
  have hloop : generateTimeMarkers tr width =
      markerClosedForm tr width ((markerInterval (daysInRange tr)).1 * msPerHour)
        (markerInterval (daysInRange tr)).2 tr.start := by
    unfold generateTimeMarkers
    exact generateMarkersLoop_eq_closedForm tr width _ _ hiv _ _ le_rfl
  have hsteps : markerSteps tr ((markerInterval (daysInRange tr)).1 * msPerHour) tr.start =
      (tr.stop - tr.start).toNat /
        ((markerInterval (daysInRange tr)).1 * msPerHour).toNat + 1 := by
    unfold markerSteps
    rw [if_pos h]
  refine ⟨?_, ?_, ?_, ?_, ?_, ?_, ?_⟩
  · rw [hloop]
    unfold markerClosedForm
    rw [hsteps, List.map_map]
    rfl
  · intro m hm
    rw [hloop] at hm
    unfold markerClosedForm at hm
    rw [List.mem_map] at hm
    obtain ⟨k, hk, rfl⟩ := hm
    rw [List.mem_range, hsteps] at hk
    have hk2 : k ≤ (tr.stop - tr.start).toNat /
        ((markerInterval (daysInRange tr)).1 * msPerHour).toNat := by omega
    have hmul : k * ((markerInterval (daysInRange tr)).1 * msPerHour).toNat ≤
        (tr.stop - tr.start).toNat :=
      (Nat.le_div_iff_mul_le (by omega)).mp hk2
    show tr.start + (k : Int) * ((markerInterval (daysInRange tr)).1 * msPerHour) ≤ tr.stop
    have hcast : (k : Int) * ((markerInterval (daysInRange tr)).1 * msPerHour) =
        ((k * ((markerInterval (daysInRange tr)).1 * msPerHour).toNat : Nat) : Int) := by
      push_cast
      rw [hivnat]
    rw [hcast]
    omega
  · have hbound : (tr.stop - tr.start).toNat <
        ((tr.stop - tr.start).toNat /
            ((markerInterval (daysInRange tr)).1 * msPerHour).toNat + 1) *
          ((markerInterval (daysInRange tr)).1 * msPerHour).toNat := by
      have h0 := Nat.lt_div_mul_add
        (a := (tr.stop - tr.start).toNat)
        (b := ((markerInterval (daysInRange tr)).1 * msPerHour).toNat) (by omega)
      have h1 : ((tr.stop - tr.start).toNat /
            ((markerInterval (daysInRange tr)).1 * msPerHour).toNat + 1) *
          ((markerInterval (daysInRange tr)).1 * msPerHour).toNat =
          (tr.stop - tr.start).toNat /
              ((markerInterval (daysInRange tr)).1 * msPerHour).toNat *
            ((markerInterval (daysInRange tr)).1 * msPerHour).toNat +
            ((markerInterval (daysInRange tr)).1 * msPerHour).toNat := by
        ring
      omega
    have hcast : (((tr.stop - tr.start).toNat /
          ((markerInterval (daysInRange tr)).1 * msPerHour).toNat + 1 : Nat) : Int) *
          ((markerInterval (daysInRange tr)).1 * msPerHour) =
        ((((tr.stop - tr.start).toNat /
            ((markerInterval (daysInRange tr)).1 * msPerHour).toNat + 1) *
            ((markerInterval (daysInRange tr)).1 * msPerHour).toNat : Nat) : Int) := by
      push_cast
      rw [hivnat]
    rw [hcast]
    omega
  · intro hd
    unfold markerInterval
    rw [if_pos hd]
  · intro hd1 hd7
    unfold markerInterval
    rw [if_neg (by omega), if_pos hd7]
  · intro hd7 hd31
    unfold markerInterval
    rw [if_neg (by omega), if_neg (by omega), if_pos hd31]
  · intro hd31
    unfold markerInterval
    rw [if_neg (by omega), if_neg (by omega), if_neg (by omega)]
    norm_num

/-- Witness for `generateTimeMarkers_spec`: the concrete four-day range
`[0, 259200000]` (interval 6 hours) satisfies the marker specification. -/
theorem generateTimeMarkers_spec_witness :
    markersSpec { start := 0, stop := 259200000 } 800 :=
  generateTimeMarkers_spec { start := 0, stop := 259200000 } 800 (by decide)

/-- The full content of claim `C10`, as a predicate on a range and width:
the chosen step is strictly positive (one of 1, 6, 24 or 168 hours), each
iteration strictly increases the cursor, the loop is insensitive to extra
fuel once given its fuel bound (it has terminated), and the produced marker
list is finite with exactly `(stop - start) / interval + 1` entries. -/
def markersTerminate (tr : TimeRange) (width : ℚ) : Prop :=
  0 < (markerInterval (daysInRange tr)).1 * msPerHour ∧
    ((markerInterval (daysInRange tr)).1 = 1 ∨ (markerInterval (daysInRange tr)).1 = 6 ∨
      (markerInterval (daysInRange tr)).1 = 24 ∨ (markerInterval (daysInRange tr)).1 = 168) ∧
    (∀ current : Int,
      current < current + (markerInterval (daysInRange tr)).1 * msPerHour) ∧
    (∀ extra : Nat,
      generateMarkersLoop tr width ((markerInterval (daysInRange tr)).1 * msPerHour)
          (markerInterval (daysInRange tr)).2
          ((tr.stop + 1 - tr.start).toNat + extra) tr.start =
        generateTimeMarkers tr width) ∧
    (generateTimeMarkers tr width).length =
      (tr.stop - tr.start).toNat /
          ((markerInterval (daysInRange tr)).1 * msPerHour).toNat + 1

/-- `C10`: for every range with `start ≤ end`, the marker loop terminates —
the step is strictly positive, so the cursor strictly increases and the
loop condition eventually fails — and the marker list is finite. -/
theorem generateTimeMarkers_terminates (tr : TimeRange) (width : ℚ)
    (h : tr.start ≤ tr.stop) : markersTerminate tr width := by
  have hivh := markerInterval_fst_pos (daysInRange tr)
  have hiv : 0 < (markerInterval (daysInRange tr)).1 * msPerHour := by
    unfold msPerHour
    positivity
  have hloop : generateTimeMarkers tr width =
      markerClosedForm tr width ((markerInterval (daysInRange tr)).1 * msPerHour)
        (markerInterval (daysInRange tr)).2 tr.start := by
    unfold generateTimeMarkers
    exact generateMarkersLoop_eq_closedForm tr width _ _ hiv _ _ le_rfl
  refine ⟨hiv, markerInterval_fst_cases _, fun current => by omega, ?_, ?_⟩
  · intro extra
    rw [hloop]
    exact generateMarkersLoop_eq_closedForm tr width _ _ hiv _ _ (by omega)
  · rw [hloop]
    unfold markerClosedForm
    rw [List.length_map, List.length_range]
    unfold markerSteps
    rw [if_pos h]

/-- Witness for `generateTimeMarkers_terminates` at the same concrete
four-day range. -/
theorem generateTimeMarkers_terminates_witness :
    markersTerminate { start := 0, stop := 259200000 } 800 :=
  generateTimeMarkers_terminates { start := 0, stop := 259200000 } 800 (by decide)

/-- The comparator of `fetchScrobbles`:
`(a, b) => new Date(b.listened_at) - new Date(a.listened_at)` sorts
newest-first, i.e. `a` may precede `b` exactly when
`b.listened_at ≤ a.listened_at`. -/
def scrobbleAfter (a b : Scrobble) : Prop := b.listened_at ≤ a.listened_at

instance : DecidableRel scrobbleAfter := fun a b =>
  inferInstanceAs (Decidable (b.listened_at ≤ a.listened_at))

instance : IsTotal Scrobble scrobbleAfter :=
  ⟨fun a b => le_total b.listened_at a.listened_at⟩

instance : IsTrans Scrobble scrobbleAfter :=
  ⟨fun _ _ _ hab hbc => le_trans hbc hab⟩

/-- `[...response.data.scrobbles].sort(comparator)`: a stable sort by the
newest-first comparator. -/
def sortedScrobbles (raw : List Scrobble) : List Scrobble :=
  List.insertionSort scrobbleAfter raw

/-- `sorted.filter((s, index, self) => index === self.findIndex(t => t.id === s.id))`:
keep only the first occurrence of each id, preserving order.  `seen` is the
set of ids already kept, empty at the start. -/
def dedupById (seen : List Int) : List Scrobble → List Scrobble
  | [] => []
  | s :: rest =>
    if s.id ∈ seen then dedupById seen rest
    else s :: dedupById (s.id :: seen) rest

/-- `uniqueScrobbles` of `fetchScrobbles`: sort newest-first, then drop
duplicate ids.  This is the list passed to `setScrobbles`. -/
def uniqueScrobbles (raw : List Scrobble) : List Scrobble :=
  dedupById [] (sortedScrobbles raw)

lemma dedupById_sublist (l : List Scrobble) :
    ∀ seen, (dedupById seen l).Sublist l := by
  induction l with
  | nil => intro seen; simp [dedupById]
  | cons s rest ih =>
    intro seen
    unfold dedupById
    by_cases hs : s.id ∈ seen
    · rw [if_pos hs]
      exact (ih seen).trans (List.sublist_cons_self s rest)
    · rw [if_neg hs]
      exact List.Sublist.cons₂ s (ih (s.id :: seen))

lemma dedupById_ids (l : List Scrobble) :
    ∀ seen, (∀ t ∈ dedupById seen l, t.id ∉ seen) ∧
      (dedupById seen l).Pairwise (fun a b => a.id ≠ b.id) := by
  induction l with
  | nil => intro seen; simp [dedupById]
  | cons s rest ih =>
    intro seen
    unfold dedupById
    by_cases hs : s.id ∈ seen
    · rw [if_pos hs]
      exact ih seen
    · rw [if_neg hs]
      obtain ⟨hmem, hpw⟩ := ih (s.id :: seen)
      refine ⟨?_, ?_⟩
      · intro t ht
        rcases List.mem_cons.mp ht with rfl | ht'
        · exact hs
        · exact fun hseen => hmem t ht' (List.mem_cons_of_mem _ hseen)
      · refine List.pairwise_cons.mpr ⟨?_, hpw⟩
        intro t ht heq
        exact hmem t ht (by rw [← heq]; exact List.mem_cons_self _ _)

/-- `C7`: for every raw response list, the list stored for display is
sorted by timestamp descending and contains no two entries with the same
id. -/
theorem uniqueScrobbles_sorted_nodup (raw : List Scrobble) :
    (uniqueScrobbles raw).Pairwise scrobbleAfter ∧
      (uniqueScrobbles raw).Pairwise (fun a b => a.id ≠ b.id) := by
  constructor
  · have hsorted : (sortedScrobbles raw).Pairwise scrobbleAfter :=
      List.sorted_insertionSort scrobbleAfter raw
    exact List.Pairwise.sublist (dedupById_sublist (sortedScrobbles raw) []) hsorted
  · exact (dedupById_ids (sortedScrobbles raw) []).2

/-- Page size of MUIScrobbleTimeline. -/
def itemsPerPage : Nat := 25

/-- `totalPages = Math.ceil(scrobbles.length / itemsPerPage)` with
`itemsPerPage = 25`, as ceiling division on naturals; `totalPages_spec`
identifies it with the exact rational ceiling. -/
def totalPages (scrobbles : List Scrobble) : Nat :=
  (scrobbles.length + 24) / 25

/-- `currentItems = scrobbles.slice((page-1)*25, page*25)`. -/
def currentItems (scrobbles : List Scrobble) (currentPage : Nat) : List Scrobble :=
  (scrobbles.drop ((currentPage - 1) * itemsPerPage)).take itemsPerPage

/-- `C5` counterexample: on an empty list the code computes
`Math.ceil(0 / 25) = 0` pages, not the `max(1, ceil(n / 25)) = 1` the claim
states. -/
theorem totalPages_nil : totalPages [] = 0 ∧ totalPages [] ≠ 1 := by decide

/-- The amended content of claim `C5`: `totalPages` is exactly
`ceil(n / 25)` — so it is at least 1 whenever the list is nonempty, but it
is 0 (not 1) on the empty list.  (The component returns an empty state
before rendering pagination when the list is empty.) -/
def totalPagesSpec (s : List Scrobble) : Prop :=
  (totalPages s : ℤ) = Int.ceil ((s.length : ℚ) / 25) ∧
    (0 < s.length → 1 ≤ totalPages s) ∧
    (s.length = 0 → totalPages s = 0)

/-- `C5` as amended: `totalPages = ceil(n / 25)` for every list; in
particular 1 ≤ totalPages for nonempty lists and totalPages = 0 for the
empty list. -/
theorem totalPages_spec (s : List Scrobble) : totalPagesSpec s := by
  refine ⟨?_, ?_, ?_⟩
  · unfold totalPages
    symm
    rw [Int.ceil_eq_iff]
    have h1 : 25 * ((s.length + 24) / 25) ≤ s.length + 24 := by omega
    have h2 : s.length ≤ 25 * ((s.length + 24) / 25) := by omega
    have h1q : 25 * (((s.length + 24) / 25 : Nat) : ℚ) ≤ (s.length : ℚ) + 24 := by
      exact_mod_cast h1
    have h2q : (s.length : ℚ) ≤ 25 * (((s.length + 24) / 25 : Nat) : ℚ) := by
      exact_mod_cast h2
    constructor
    · rw [Int.cast_natCast, sub_lt_iff_lt_add]
      linarith
    · rw [Int.cast_natCast]
      linarith
  · intro h
    unfold totalPages
    omega
  · intro h
    unfold totalPages
    omega

/-- Witness for `totalPages_spec` on a 26-element list: 2 pages. -/
theorem totalPages_spec_witness :
    totalPagesSpec (List.replicate 26 sampleScrobble) ∧
      totalPages (List.replicate 26 sampleScrobble) = 2 :=
  ⟨totalPages_spec (List.replicate 26 sampleScrobble), by decide⟩

/-- `goToFirstPage = () => setCurrentPage(1)`. -/
def goToFirstPage (_current : Int) : Int := 1

/-- `goToPreviousPage = prev => Math.max(prev - 1, 1)`. -/
def goToPreviousPage (prev : Int) : Int := max (prev - 1) 1

/-- `goToNextPage = prev => Math.min(prev + 1, totalPages)`. -/
def goToNextPage (total prev : Int) : Int := min (prev + 1) total

/-- `goToLastPage = () => setCurrentPage(totalPages)`. -/
def goToLastPage (total : Int) (_current : Int) : Int := total

/-- `goToPage = page => setCurrentPage(page)`: the requested page is applied
with no clamping. -/
def goToPage (page : Int) (_current : Int) : Int := page

/-- The page input's `onChange` handler: calls `goToPage` only when the
parsed value is in `[1, totalPages]`, otherwise leaves the page alone.
(A non-numeric input, `NaN` in the source, is out of scope of the integer
model; it also leaves the page alone.) -/
def pageInputChange (total current value : Int) : Int :=
  if 1 ≤ value ∧ value ≤ total then goToPage value current else current

/-- The page input's `onBlur` handler: clamps the parsed value into
`[1, totalPages]` via `goToPage`, leaving the page alone when it is already
in range. -/
def pageInputBlur (total current value : Int) : Int :=
  if value < 1 then goToPage 1 current
  else if total < value then goToPage total current
  else current

/-- `C6` counterexample: `goToPage(0)` sets the current page to 0, outside
`[1, totalPages]` for every total — the raw navigation operation does not
clamp. -/
theorem goToPage_unclamped : goToPage 0 1 = 0 ∧ ¬ 1 ≤ goToPage 0 1 := by decide

/-- The amended content of claim `C6`: `first`, `previous`, `next` and
`last` keep the current page inside `[1, totalPages]` (given a positive
total and an in-range current page), and the *input handlers* wrapping
`goToPage` enforce the range — `onChange` ignores out-of-range requests and
`onBlur` clamps them — but `goToPage` itself applies any requested page
unclamped. -/
def paginationNavSpec (total current : Int) : Prop :=
  (1 ≤ total → 1 ≤ current → current ≤ total →
    (1 ≤ goToFirstPage current ∧ goToFirstPage current ≤ total) ∧
      (1 ≤ goToPreviousPage current ∧ goToPreviousPage current ≤ total) ∧
      (1 ≤ goToNextPage total current ∧ goToNextPage total current ≤ total) ∧
      (1 ≤ goToLastPage total current ∧ goToLastPage total current ≤ total) ∧
      (∀ value, 1 ≤ pageInputChange total current value ∧
        pageInputChange total current value ≤ total) ∧
      (∀ value, 1 ≤ pageInputBlur total current value ∧
        pageInputBlur total current value ≤ total)) ∧
    (∀ page, goToPage page current = page)

/-- `C6` as amended: the four button operations and the two input handlers
stay within `[1, totalPages]`, while `goToPage` itself is unclamped. -/
theorem paginationNav_spec (total current : Int) : paginationNavSpec total current := by
  unfold paginationNavSpec goToFirstPage goToPreviousPage goToNextPage goToLastPage
    pageInputChange pageInputBlur goToPage
  refine ⟨?_, fun _ => rfl⟩
  intro h1 h2 h3
  refine ⟨by omega, by omega, by omega, by omega, ?_, ?_⟩
  · intro value
    by_cases hv : 1 ≤ value ∧ value ≤ total
    · rw [if_pos hv]
      omega
    · rw [if_neg hv]
      omega
  · intro value
    by_cases hv1 : value < 1
    · rw [if_pos hv1]
      omega
    · rw [if_neg hv1]
      by_cases hv2 : total < value
      · rw [if_pos hv2]
        omega
      · rw [if_neg hv2]
        omega

/-- Witness for `paginationNav_spec` at total 3, current page 2. -/
theorem paginationNav_spec_witness : paginationNavSpec 3 2 :=
  paginationNav_spec 3 2

/-- The state held by the `useScrobbleTimeline` hook: one `useState` cell
per field. -/
structure HookState where
  timeRange : TimeRange
  loading : Bool
  error : Option String
  scrobbles : List Scrobble
  selectedScrobble : Option Scrobble
  hoveredScrobble : Option Scrobble
deriving DecidableEq, Repr

/-- The discrete events that mutate the hook state.  A fetch is started for
the range current at that moment; its eventual resolution is a separate
`fetchSuccess`/`fetchFailure` event carrying the `key` (the range the fetch
was issued for), which may arrive after further range changes. -/
inductive HookEvent where
  | setRange (r : TimeRange)
  | fetchStart
  | fetchSuccess (key : TimeRange) (raw : List Scrobble)
  | fetchFailure (key : TimeRange) (msg : String)
  | selectScrobble (s : Option Scrobble)
  | hoverScrobble (s : Option Scrobble)
deriving DecidableEq

/-- One step of the hook, mirroring the source paths:
`setTimeRange`, the start of `fetchScrobbles`
(`setLoading(true); setError(null)`), its success branch
(`setScrobbles(uniqueScrobbles)` then `setLoading(false)` in `finally` —
note the source compares nothing against the key: the response is applied
unconditionally), its catch branch (`setError(message)` then
`setLoading(false)`), and the two selection setters. -/
def hookStep (st : HookState) : HookEvent → HookState
  | .setRange r => { st with timeRange := r }
  | .fetchStart => { st with loading := true, error := none }
  | .fetchSuccess _key raw =>
    { st with scrobbles := uniqueScrobbles raw, loading := false }
  | .fetchFailure _key msg =>
    { st with error := some msg, loading := false }
  | .selectScrobble s => { st with selectedScrobble := s }
  | .hoverScrobble s => { st with hoveredScrobble := s }

/-- Folding a list of events over the hook state. -/
def hookRun (st : HookState) (events : List HookEvent) : HookState :=
  events.foldl hookStep st

/-- A second fixed scrobble, distinct from `sampleScrobble`. -/
def otherScrobble : Scrobble :=
  { id := 2, artist := "b", track := "u", album := none,
    listened_at := 250, image_url := none }

/-- Initial hook state for the concrete traces: range `[0, 100]`, nothing
loaded. -/
def initialHookState : HookState :=
  { timeRange := { start := 0, stop := 100 }, loading := false, error := none,
    scrobbles := [], selectedScrobble := none, hoveredScrobble := none }

/-- The interleaving of claim `C4`: fetch A starts for range `[0, 100]`;
the range changes to `[200, 300]` and fetch B starts; B's response (the
scrobble with id 2) arrives; then A's stale response (the scrobble with
id 1) arrives last. -/
def staleResponseTrace : List HookEvent :=
  [ .fetchStart,
    .setRange { start := 200, stop := 300 },
    .fetchStart,
    .fetchSuccess { start := 200, stop := 300 } [otherScrobble],
    .fetchSuccess { start := 0, stop := 100 } [sampleScrobble] ]

/-- `C4` counterexample: after the stale-response interleaving the current
range is `[200, 300]` but the displayed scrobbles are the payload of the
stale fetch for `[0, 100]` (id 1), not the latest fetch's payload (id 2) —
the source applies every response unconditionally, so the stale response is
not discarded. -/
theorem staleResponse_displayed :
    (hookRun initialHookState staleResponseTrace).timeRange =
        { start := 200, stop := 300 } ∧
      (hookRun initialHookState staleResponseTrace).scrobbles.map Scrobble.id = [1] ∧
      (uniqueScrobbles [otherScrobble]).map Scrobble.id = [2] := by
  refine ⟨rfl, rfl, rfl⟩

/-- `C4` as amended: the success path installs the processed response and
clears `loading` regardless of whether the response's key matches the
current range — the last response to *arrive* wins, and a response never
changes the current range.  (No discard-if-stale mechanism exists in the
code.) -/
theorem fetchSuccess_ignores_key (st : HookState) (key key2 : TimeRange)
    (raw : List Scrobble) :
    hookStep st (.fetchSuccess key raw) = hookStep st (.fetchSuccess key2 raw) ∧
      (hookStep st (.fetchSuccess key raw)).scrobbles = uniqueScrobbles raw ∧
      (hookStep st (.fetchSuccess key raw)).timeRange = st.timeRange ∧
      (hookStep st (.fetchSuccess key raw)).loading = false := by
  exact ⟨rfl, rfl, rfl, rfl⟩

/-- `C9`: the failure path of `fetchScrobbles` sets only the error message
and the loading flag; the scrobble list, the range and the
selected/hovered identities are left exactly as they were. -/
theorem fetchFailure_frame (st : HookState) (key : TimeRange) (msg : String) :
    (hookStep st (.fetchFailure key msg)).error = some msg ∧
      (hookStep st (.fetchFailure key msg)).loading = false ∧
      (hookStep st (.fetchFailure key msg)).scrobbles = st.scrobbles ∧
      (hookStep st (.fetchFailure key msg)).timeRange = st.timeRange ∧
      (hookStep st (.fetchFailure key msg)).selectedScrobble = st.selectedScrobble ∧
      (hookStep st (.fetchFailure key msg)).hoveredScrobble = st.hoveredScrobble := by
  exact ⟨rfl, rfl, rfl, rfl, rfl, rfl⟩

/-- Subtraction of an exact rational from a JS value
(`positioned.position - clientWidth / 2`). -/
def jsSub (x : JsNum) (q : ℚ) : JsNum :=
  match x with
  | .num r => .num (r - q)
  | .nan => .nan
  | .posInf => .posInf
  | .negInf => .negInf

/-- `scrollToScrobble` from ScrobbleTimeline, as the scroll target it
computes: find the positioned scrobble with the matching id; if none is
found, return early with no target (`if (!positioned) return;`); otherwise
scroll to `Math.max(0, position - clientWidth / 2)`. -/
def scrollToScrobble (positioned : List (Scrobble × JsNum)) (clientWidth : ℚ)
    (s : Scrobble) : Option JsNum :=
  match positioned.find? (fun p => p.1.id == s.id) with
  | none => none
  | some p => some (jsMax 0 (jsSub p.2 (clientWidth / 2)))

/-- The trace of claim `C8`: the scrobble with id 1 is selected, then the
range changes and the new fetch returns a list that does not contain id 1. -/
def staleSelectionTrace : List HookEvent :=
  [ .selectScrobble (some sampleScrobble),
    .setRange { start := 200, stop := 300 },
    .fetchStart,
    .fetchSuccess { start := 200, stop := 300 } [otherScrobble] ]

/-- `C8` counterexample: after the stale-selection trace the selected
identity (id 1) is absent from the current scrobbles, yet the selection
still holds it — it is *not* cleared to empty as the claim states — while
the scroll computation for it silently yields no target. -/
theorem staleSelection_not_cleared :
    (hookRun initialHookState staleSelectionTrace).selectedScrobble =
        some sampleScrobble ∧
      (hookRun initialHookState staleSelectionTrace).selectedScrobble ≠ none ∧
      (hookRun initialHookState staleSelectionTrace).scrobbles.map Scrobble.id = [2] ∧
      scrollToScrobble
          (positionScrobbles (hookRun initialHookState staleSelectionTrace).scrobbles
            { start := 200, stop := 300 } 800)
          1000 sampleScrobble = none := by
  refine ⟨rfl, by decide, rfl, rfl⟩

/-- `C8` as amended: when the selected identity is not among the positioned
events, `scrollToScrobble` silently returns without a target (no error is
raised), and no state transition clears the stale selection — in
particular a successful fetch that drops the event leaves `selected`
unchanged. -/
theorem staleSelection_silent (positioned : List (Scrobble × JsNum))
    (clientWidth : ℚ) (s : Scrobble) (st : HookState) (key : TimeRange)
    (raw : List Scrobble) :
    ((∀ p ∈ positioned, p.1.id ≠ s.id) →
      scrollToScrobble positioned clientWidth s = none) ∧
      (hookStep st (.fetchSuccess key raw)).selectedScrobble = st.selectedScrobble := by
  refine ⟨?_, rfl⟩
  intro h
  unfold scrollToScrobble
  have hfind : positioned.find? (fun p => p.1.id == s.id) = none := by
    rw [List.find?_eq_none]
    intro p hp
    simpa using h p hp
  rw [hfind]

/-- Witness for `staleSelection_silent`: with only the scrobble with id 2
positioned, looking up the selected scrobble with id 1 yields no scroll
target, and the fetch of that list leaves the stale selection in place. -/
theorem staleSelection_silent_witness :
    scrollToScrobble [(otherScrobble, JsNum.num 0)] 1000 sampleScrobble = none ∧
      (hookStep initialHookState
          (.fetchSuccess { start := 200, stop := 300 } [otherScrobble])).selectedScrobble =
        initialHookState.selectedScrobble := by
  have h := staleSelection_silent [(otherScrobble, JsNum.num 0)] 1000 sampleScrobble
    initialHookState { start := 200, stop := 300 } [otherScrobble]
  exact ⟨h.1 (by decide), h.2⟩

end Tuneline
